import Mathlib

/-!
Verification of the retrieval core of the Easy RAG question-answering system
(`Easy_RAG_System_Colab.ipynb`, class `EasyRAG`).

Embedding conventions:
* Python strings (documents, questions, answers) are `List Char` (one entry
  per code point, so Python slicing `s[:200]` is `List.take 200`).
* Embedding vectors are `List ℚ` — an exact idealisation of the float vectors
  produced by the sentence-transformer model and consumed by FAISS.
* The embedding model itself is an external collaborator; it is passed in as
  an explicit function `encode : List Doc → List Vec` (the source calls
  `self.embedder.encode(texts)`).
* The FAISS `IndexFlatL2` object is an external library component.  It is
  modelled here by `IndexFlatL2` with its documented exact semantics:
  brute-force squared-L2 scan returning the `k` nearest stored vectors in
  ascending distance order; per the specification, ties are broken by
  ascending identifier (insertion index).  A dimension disagreement raises,
  modelled as `Except.error RAGError.dimensionMismatch`.
* Fallible calls return `Except RAGError`; a Python exception that
  propagates out of a method is the `.error` case.
-/

/-- A document / question / answer: a Python string as a list of code points. -/
abbrev Doc := List Char

/-- An embedding vector: idealised float components as exact rationals. -/
abbrev Vec := List ℚ

/-- The error taxonomy of the core: the only fatal error is a vector whose
length disagrees with the configured dimensionality. -/
inductive RAGError where
  | dimensionMismatch
deriving Repr, DecidableEq

/-- One ranked search result, the record
`{"text": ..., "similarity": ..., "rank": ...}` built in `EasyRAG.search`. -/
structure SearchResult where
  text : Doc
  similarity : ℚ
  rank : Nat
deriving Repr, DecidableEq

/-- Placeholder result used only as the default of `List.getD`. -/
def dummyResult : SearchResult := ⟨[], 0, 0⟩

/-- Squared Euclidean (L2) distance between two vectors, the metric computed
by `faiss.IndexFlatL2` (FAISS returns squared distances). -/
def sqL2 : Vec → Vec → ℚ
  | x :: xs, y :: ys => (x - y) ^ 2 + sqL2 xs ys
  | _, _ => 0

/-- Model of the state of `faiss.IndexFlatL2(d)`: the configured
dimensionality and the stored vectors in insertion order (the identifier of a
vector is its position in `xb`). -/
structure IndexFlatL2 where
  d : Nat
  xb : List Vec
deriving Repr, DecidableEq

/-- Model of `faiss.Index.add`: appends the batch of vectors to the index.
FAISS rejects input whose dimensionality disagrees with `d` before storing
anything; modelled as `Except.error RAGError.dimensionMismatch`. -/
def IndexFlatL2.add (idx : IndexFlatL2) (vecs : List Vec) :
    Except RAGError IndexFlatL2 :=
  if vecs.all (fun v => v.length = idx.d) then
    .ok { idx with xb := idx.xb ++ vecs }
  else
    .error .dimensionMismatch

/-- The comparison used to rank candidate `(distance, identifier)` pairs:
ascending squared distance, ties broken by ascending identifier.  Modelled
from the spec: the tie-break lives inside the external FAISS library. -/
def distLE (a b : ℚ × Nat) : Prop :=
  a.1 < b.1 ∨ (a.1 = b.1 ∧ a.2 ≤ b.2)

instance : DecidableRel distLE :=
  fun _ _ => inferInstanceAs (Decidable (_ ∨ _))

instance : IsTotal (ℚ × Nat) distLE where
  total a b := by
    rcases lt_trichotomy a.1 b.1 with h | h | h
    · exact Or.inl (Or.inl h)
    · rcases Nat.le_total a.2 b.2 with h2 | h2
      · exact Or.inl (Or.inr ⟨h, h2⟩)
      · exact Or.inr (Or.inr ⟨h.symm, h2⟩)
    · exact Or.inr (Or.inl h)

instance : IsTrans (ℚ × Nat) distLE where
  trans a b c hab hbc := by
    rcases hab with h1 | ⟨he1, hl1⟩
    · rcases hbc with h2 | ⟨he2, _⟩
      · exact Or.inl (h1.trans h2)
      · exact Or.inl (he2 ▸ h1)
    · rcases hbc with h2 | ⟨he2, hl2⟩
      · exact Or.inl (he1 ▸ h2)
      · exact Or.inr ⟨he1.trans he2, hl1.trans hl2⟩

/-- The full candidate list scanned by the exact flat index: every stored
vector paired with its squared distance to the query and its identifier,
sorted by `distLE`. -/
def IndexFlatL2.neighborList (idx : IndexFlatL2) (q : Vec) : List (ℚ × Nat) :=
  List.insertionSort distLE (idx.xb.enum.map (fun p => (sqL2 q p.2, p.1)))

/-- Model of `faiss.Index.search`: exact brute-force scan returning the `k`
nearest stored vectors as `(squared distance, identifier)` pairs in ascending
`distLE` order.  Errors when the query dimensionality disagrees with `d`. -/
def IndexFlatL2.search (idx : IndexFlatL2) (q : Vec) (k : Nat) :
    Except RAGError (List (ℚ × Nat)) :=
  if q.length = idx.d then
    .ok ((idx.neighborList q).take k)
  else
    .error .dimensionMismatch

/-- The state of an `EasyRAG` instance: the configured embedding
dimensionality (`self.embedding_dim`), the FAISS index (`self.index`) and the
parallel text store (`self.documents`). -/
structure EasyRAG where
  embedding_dim : Nat
  index : IndexFlatL2
  documents : List Doc
deriving Repr, DecidableEq

/-- `EasyRAG.__init__`: dimensionality 384 (all-MiniLM-L6-v2), an empty
`IndexFlatL2(384)`, and an empty document store. -/
def EasyRAG.init : EasyRAG :=
  { embedding_dim := 384
    index := { d := 384, xb := [] }
    documents := [] }

/-- `EasyRAG.add_documents`: encode the whole batch in one embedder call, add
the embeddings to the FAISS index, then extend the text store.  If the index
rejects the batch the exception propagates and the state is unchanged. -/
def EasyRAG.add_documents (encode : List Doc → List Vec) (rag : EasyRAG)
    (texts : List Doc) : Except RAGError EasyRAG := do
  let embeddings := encode texts
  let idx ← rag.index.add embeddings
  .ok { rag with index := idx, documents := rag.documents ++ texts }

/-- `EasyRAG.search`: return `[]` when the document store is empty (before
touching the embedder or the index); otherwise encode the query as a
single-item batch, search the index for `min(top_k, len(documents))`
neighbours, and build the ranked result records.  The source guards each
append with `idx < len(self.documents)` while the rank counter `i` runs over
all returned pairs; both are reproduced literally. -/
def EasyRAG.search (encode : List Doc → List Vec) (rag : EasyRAG)
    (query : Doc) (top_k : Nat) : Except RAGError (List SearchResult) :=
  if rag.documents.isEmpty then
    .ok []
  else do
    let query_embedding := (encode [query]).headD []
    let pairs ← rag.index.search query_embedding (min top_k rag.documents.length)
    .ok ((pairs.enum.filter (fun p => p.2.2 < rag.documents.length)).map
      (fun p =>
        { text := rag.documents.getD p.2.2 []
          similarity := 1 / (1 + p.2.1)
          rank := p.1 + 1 }))

/-- The fixed fallback answer returned on an empty knowledge base. -/
def fallbackAnswer : Doc := "I don't have information to answer this question.".data

/-- The fixed lead-in phrase of the primary answer section. -/
def leadPrimary : Doc := "Based on the available information:\n\n".data

/-- The fixed lead-in phrase of the secondary answer section. -/
def leadSecondary : Doc := "\n\nAdditional relevant information:\n".data

/-- The ellipsis marker appended after the truncated secondary text. -/
def ellipsisMark : Doc := "...".data

/-- `EasyRAG.answer_question`: retrieve with `top_k = 3`; on no results return
the fixed fallback and `[]`; otherwise compose the deterministic extractive
answer: the full rank-1 text after `leadPrimary`, and — only when a second
result exists — `leadSecondary` followed by the first 200 characters of the
rank-2 text and the ellipsis marker.  (The source also builds an unused local
`context` string; it has no effect and is omitted.) -/
def EasyRAG.answer_question (encode : List Doc → List Vec) (rag : EasyRAG)
    (question : Doc) : Except RAGError (Doc × List SearchResult) := do
  let relevant_docs ← rag.search encode question 3
  if relevant_docs.isEmpty then
    .ok (fallbackAnswer, [])
  else
    let answer := leadPrimary ++ (relevant_docs.getD 0 dummyResult).text
    let answer :=
      if 1 < relevant_docs.length then
        answer ++ leadSecondary ++
          (relevant_docs.getD 1 dummyResult).text.take 200 ++ ellipsisMark
      else
        answer
    .ok (answer, relevant_docs)

/-- Runs a sequence of `add_documents` calls, stopping at the first error. -/
def EasyRAG.addAll (encode : List Doc → List Vec) (rag : EasyRAG) :
    List (List Doc) → Except RAGError EasyRAG
  | [] => .ok rag
  | b :: bs => do
      let r ← rag.add_documents encode b
      r.addAll encode bs

/-- State-threaded form of `EasyRAG.search` for frame reasoning: the Python
method only reads `self`, so the translation returns the (unchanged) state it
finished with alongside the value. -/
def EasyRAG.searchS (encode : List Doc → List Vec) (σ : EasyRAG)
    (query : Doc) (top_k : Nat) :
    Except RAGError (List SearchResult) × EasyRAG :=
  if σ.documents.isEmpty then
    (.ok [], σ)
  else
    match σ.index.search ((encode [query]).headD [])
        (min top_k σ.documents.length) with
    | .error e => (.error e, σ)
    | .ok pairs =>
        (.ok ((pairs.enum.filter (fun p => p.2.2 < σ.documents.length)).map
          (fun p =>
            { text := σ.documents.getD p.2.2 []
              similarity := 1 / (1 + p.2.1)
              rank := p.1 + 1 })), σ)

/-- State-threaded form of `EasyRAG.answer_question`: threads the state
through its call to `searchS` and only reads it. -/
def EasyRAG.answer_questionS (encode : List Doc → List Vec) (σ : EasyRAG)
    (question : Doc) :
    Except RAGError (Doc × List SearchResult) × EasyRAG :=
  match σ.searchS encode question 3 with
  | (.error e, σ1) => (.error e, σ1)
  | (.ok relevant_docs, σ1) =>
      if relevant_docs.isEmpty then
        (.ok (fallbackAnswer, []), σ1)
      else
        let answer := leadPrimary ++ (relevant_docs.getD 0 dummyResult).text
        let answer :=
          if 1 < relevant_docs.length then
            answer ++ leadSecondary ++
              (relevant_docs.getD 1 dummyResult).text.take 200 ++ ellipsisMark
          else
            answer
        ((.ok (answer, relevant_docs)), σ1)

/-- State-threaded form of `EasyRAG.add_documents`: on success the state
grows, on an index error the exception propagates with the state intact. -/
def EasyRAG.add_documentsS (encode : List Doc → List Vec) (σ : EasyRAG)
    (texts : List Doc) : Except RAGError Unit × EasyRAG :=
  match σ.index.add (encode texts) with
  | .error e => (.error e, σ)
  | .ok idx => (.ok (), { σ with index := idx, documents := σ.documents ++ texts })

/-! Concrete data for exercising the theorems. -/

/-- A one-character document. -/
def docA : Doc := ['A']

/-- A three-character document. -/
def docB : Doc := ['B', 'B', 'B']

/-- Toy embedder: one-dimensional embeddings, the length of the text. -/
def encodeW : List Doc → List Vec := fun ts => ts.map (fun t => [(t.length : ℚ)])

/-- Embedder producing two-dimensional vectors, deliberately inconsistent
with a one-dimensional index. -/
def encodeBad : List Doc → List Vec := fun ts => ts.map (fun _ => [0, 0])

/-- Embedder for the 384-dimensional default index. -/
def encode384 : List Doc → List Vec :=
  fun ts => ts.map (fun _ => List.replicate 384 (0 : ℚ))

/-- A two-document knowledge base over one-dimensional embeddings, consistent
with `encodeW` (`docA ↦ [1]`, `docB ↦ [3]`). -/
def ragW : EasyRAG :=
  { embedding_dim := 1
    index := { d := 1, xb := [[1], [3]] }
    documents := [docA, docB] }

/-- A query that `encodeW` maps to `[2]`, at squared distance 1 from both
stored vectors of `ragW` — a tie, resolved by ascending identifier. -/
def qW : Doc := ['Z', 'Z']

/-- The `(distance, identifier)` pairs the index returns for `[2]` on `ragW`. -/
def pairsW : List (ℚ × Nat) := [(1, 0), (1, 1)]

/-- The rank-1 result of the query `qW` on `ragW`. -/
def resW1 : SearchResult := ⟨docA, 1 / 2, 1⟩

/-- The full result list of the query `qW` on `ragW`. -/
def resW : List SearchResult := [resW1, ⟨docB, 1 / 2, 2⟩]

/-- The answer composed for the query `qW` on `ragW`. -/
def ansW : Doc :=
  leadPrimary ++ docA ++ leadSecondary ++ List.take 200 docB ++ ellipsisMark

/-- Two singleton batches to feed through `addAll`. -/
def batchesW : List (List Doc) := [[docA], [docB]]

/-- The state reached from `EasyRAG.init` after inserting `batchesW` with
`encode384`. -/
def ragAfter : EasyRAG :=
  { embedding_dim := 384
    index := { d := 384, xb := [List.replicate 384 0, List.replicate 384 0] }
    documents := [docA, docB] }

/-! Supporting lemmas. -/

theorem sqL2_nonneg (a b : Vec) : 0 ≤ sqL2 a b := by
  induction a generalizing b with
  | nil => cases b <;> simp [sqL2]
  | cons x xs ih =>
    cases b with
    | nil => simp [sqL2]
    | cons y ys =>
      have h1 := ih ys
      have h2 : (0 : ℚ) ≤ (x - y) ^ 2 := sq_nonneg _
      show 0 ≤ (x - y) ^ 2 + sqL2 xs ys
      linarith

theorem IndexFlatL2.neighborList_perm (idx : IndexFlatL2) (q : Vec) :
    (idx.neighborList q).Perm (idx.xb.enum.map (fun p => (sqL2 q p.2, p.1))) :=
  List.perm_insertionSort _ _

theorem IndexFlatL2.length_neighborList (idx : IndexFlatL2) (q : Vec) :
    (idx.neighborList q).length = idx.xb.length := by
  rw [(idx.neighborList_perm q).length_eq, List.length_map, List.enum_length]

theorem IndexFlatL2.mem_neighborList (idx : IndexFlatL2) (q : Vec)
    (p : ℚ × Nat) (hp : p ∈ idx.neighborList q) :
    p.2 < idx.xb.length ∧ p.1 = sqL2 q (idx.xb.getD p.2 []) := by
  have hp2 : p ∈ idx.xb.enum.map (fun p => (sqL2 q p.2, p.1)) :=
    (idx.neighborList_perm q).mem_iff.mp hp
  rcases List.mem_map.mp hp2 with ⟨a, ha, hEq⟩
  obtain ⟨i, v⟩ := a
  obtain ⟨hlt, hv⟩ := List.mem_enum ha
  subst hEq
  refine ⟨hlt, ?_⟩
  simp only [List.getD_eq_getElem idx.xb [] hlt, hv]

theorem IndexFlatL2.sorted_neighborList (idx : IndexFlatL2) (q : Vec) :
    List.Sorted distLE (idx.neighborList q) :=
  List.sorted_insertionSort distLE _

theorem IndexFlatL2.idsNodup (idx : IndexFlatL2) (q : Vec) :
    ((idx.neighborList q).map Prod.snd).Nodup := by
  have h1 : ((idx.xb.enum.map (fun p => (sqL2 q p.2, p.1))).map Prod.snd).Nodup := by
    rw [List.map_map]
    have h2 : (Prod.snd ∘ fun p : Nat × Vec => (sqL2 q p.2, p.1)) = Prod.fst := rfl
    rw [h2, List.enum_map_fst]
    exact List.nodup_range _
  exact (((idx.neighborList_perm q).map Prod.snd).symm).nodup h1

theorem IndexFlatL2.search_ok (idx : IndexFlatL2) (q : Vec) (k : Nat)
    (pairs : List (ℚ × Nat)) (hok : idx.search q k = .ok pairs) :
    q.length = idx.d ∧ pairs = (idx.neighborList q).take k := by
  unfold IndexFlatL2.search at hok
  split at hok
  · refine ⟨by assumption, ?_⟩
    injection hok with h
    exact h.symm
  · cases hok

theorem EasyRAG.search_empty (encode : List Doc → List Vec) (rag : EasyRAG)
    (query : Doc) (top_k : Nat) (h : rag.documents = []) :
    rag.search encode query top_k = .ok [] := by
  simp [EasyRAG.search, h]

theorem EasyRAG.search_ok_nonempty (encode : List Doc → List Vec)
    (rag : EasyRAG) (query : Doc) (top_k : Nat) (results : List SearchResult)
    (hne : rag.documents ≠ [])
    (hok : rag.search encode query top_k = .ok results) :
    ∃ pairs, rag.index.search ((encode [query]).headD [])
        (min top_k rag.documents.length) = .ok pairs ∧
      results = (pairs.enum.filter (fun p => p.2.2 < rag.documents.length)).map
        (fun p =>
          { text := rag.documents.getD p.2.2 []
            similarity := 1 / (1 + p.2.1)
            rank := p.1 + 1 }) := by
  have hie : rag.documents.isEmpty = false := by
    simp [List.isEmpty_iff, hne]
  unfold EasyRAG.search at hok
  rw [hie] at hok
  simp only [Bool.false_eq_true, if_false] at hok
  cases hS : rag.index.search ((encode [query]).headD [])
      (min top_k rag.documents.length) with
  | error e =>
    rw [hS] at hok
    simp only [Bind.bind, Except.bind] at hok
    exact Except.noConfusion hok
  | ok pairs =>
    rw [hS] at hok
    simp only [Bind.bind, Except.bind, Except.ok.injEq] at hok
    exact ⟨pairs, rfl, hok.symm⟩

theorem EasyRAG.search_ok_eq (encode : List Doc → List Vec) (rag : EasyRAG)
    (query : Doc) (top_k : Nat) (results : List SearchResult)
    (hne : rag.documents ≠ [])
    (hinv : rag.index.xb.length = rag.documents.length)
    (hok : rag.search encode query top_k = .ok results) :
    ∃ pairs, rag.index.search ((encode [query]).headD [])
        (min top_k rag.documents.length) = .ok pairs ∧
      pairs = (rag.index.neighborList ((encode [query]).headD [])).take
        (min top_k rag.documents.length) ∧
      results = pairs.enum.map (fun p =>
        { text := rag.documents.getD p.2.2 []
          similarity := 1 / (1 + p.2.1)
          rank := p.1 + 1 }) ∧
      results.length = min top_k rag.documents.length := by
  obtain ⟨pairs, hS, hres⟩ :=
    EasyRAG.search_ok_nonempty encode rag query top_k results hne hok
  obtain ⟨hq, hpairs⟩ := IndexFlatL2.search_ok _ _ _ _ hS
  have hmem : ∀ a ∈ pairs.enum, a.2.2 < rag.documents.length := by
    intro a ha
    obtain ⟨i, p⟩ := a
    obtain ⟨hlt, hp⟩ := List.mem_enum ha
    have hpmem : p ∈ pairs := by
      rw [hp]
      exact List.getElem_mem hlt
    have hnb : p ∈ rag.index.neighborList ((encode [query]).headD []) := by
      rw [hpairs] at hpmem
      exact (List.take_sublist _ _).subset hpmem
    exact hinv ▸ (IndexFlatL2.mem_neighborList _ _ _ hnb).1
  have hfil : pairs.enum.filter (fun p => p.2.2 < rag.documents.length)
      = pairs.enum := by
    rw [List.filter_eq_self]
    intro a ha
    simpa using hmem a ha
  have hlen : pairs.length = min top_k rag.documents.length := by
    rw [hpairs, List.length_take, IndexFlatL2.length_neighborList, hinv]
    omega
  refine ⟨pairs, hS, hpairs, ?_, ?_⟩
  · rw [hres, hfil]
  · rw [hres, hfil, List.length_map, List.enum_length, hlen]

theorem EasyRAG.mem_search_sim (encode : List Doc → List Vec) (rag : EasyRAG)
    (query : Doc) (top_k : Nat) (results : List SearchResult)
    (hok : rag.search encode query top_k = .ok results)
    (r : SearchResult) (hr : r ∈ results) :
    ∃ i, i < rag.index.xb.length ∧
      r.similarity = 1 / (1 + sqL2 ((encode [query]).headD [])
        (rag.index.xb.getD i [])) ∧
      r.text = rag.documents.getD i [] := by
  by_cases hne : rag.documents = []
  · rw [EasyRAG.search_empty encode rag query top_k hne] at hok
    injection hok with h
    rw [← h] at hr
    cases hr
  · obtain ⟨pairs, hS, hres⟩ :=
      EasyRAG.search_ok_nonempty encode rag query top_k results hne hok
    obtain ⟨hq, hpairs⟩ := IndexFlatL2.search_ok _ _ _ _ hS
    rw [hres] at hr
    obtain ⟨a, ha, hra⟩ := List.mem_map.mp hr
    have haenum : a ∈ pairs.enum := List.mem_of_mem_filter ha
    obtain ⟨i, p⟩ := a
    obtain ⟨hlt, hp⟩ := List.mem_enum haenum
    have hpmem : p ∈ pairs := by
      rw [hp]
      exact List.getElem_mem hlt
    have hnb : p ∈ rag.index.neighborList ((encode [query]).headD []) := by
      rw [hpairs] at hpmem
      exact (List.take_sublist _ _).subset hpmem
    obtain ⟨hid, hdist⟩ := IndexFlatL2.mem_neighborList _ _ _ hnb
    refine ⟨p.2, hid, ?_, ?_⟩
    · rw [← hra]
      simp only [← hdist]
    · rw [← hra]

theorem EasyRAG.answer_ok_eq (encode : List Doc → List Vec) (rag : EasyRAG)
    (question : Doc) (ans : Doc) (results : List SearchResult)
    (hne : rag.documents ≠ [])
    (hinv : rag.index.xb.length = rag.documents.length)
    (hok : rag.answer_question encode question = .ok (ans, results)) :
    rag.search encode question 3 = .ok results ∧
    results.length = min 3 rag.documents.length ∧
    results ≠ [] ∧
    ans = leadPrimary ++ (results.getD 0 dummyResult).text ++
      (if 1 < results.length then
        leadSecondary ++ (results.getD 1 dummyResult).text.take 200 ++ ellipsisMark
      else []) := by
  unfold EasyRAG.answer_question at hok
  cases hS : rag.search encode question 3 with
  | error e =>
    rw [hS] at hok
    simp only [Bind.bind, Except.bind] at hok
    exact Except.noConfusion hok
  | ok rs =>
    rw [hS] at hok
    simp only [Bind.bind, Except.bind] at hok
    have hlen : rs.length = min 3 rag.documents.length := by
      obtain ⟨pairs, _, _, _, h4⟩ :=
        EasyRAG.search_ok_eq encode rag question 3 rs hne hinv hS
      exact h4
    have hpos : 0 < rs.length := by
      rw [hlen]
      have : rag.documents.length ≠ 0 := by
        simpa [List.length_eq_zero] using hne
      omega
    have hie : rs.isEmpty = false := by
      cases rs with
      | nil => simp at hpos
      | cons a l => rfl
    rw [hie] at hok
    simp only [Bool.false_eq_true, if_false, Except.ok.injEq, Prod.mk.injEq] at hok
    obtain ⟨hans, hres⟩ := hok
    subst hres
    refine ⟨rfl, hlen, ?_, ?_⟩
    · intro hnil
      rw [hnil] at hpos
      simp at hpos
    · rw [← hans]
      by_cases h2 : 1 < rs.length
      · rw [if_pos h2, if_pos h2]
        simp [List.append_assoc]
      · rw [if_neg h2, if_neg h2]
        simp

theorem EasyRAG.add_documents_ok (encode : List Doc → List Vec)
    (rag : EasyRAG) (texts : List Doc) (rag2 : EasyRAG)
    (h : rag.add_documents encode texts = .ok rag2) :
    rag2.documents = rag.documents ++ texts ∧
    rag2.index.xb = rag.index.xb ++ encode texts ∧
    rag2.index.d = rag.index.d ∧
    rag2.embedding_dim = rag.embedding_dim ∧
    (∀ v ∈ encode texts, v.length = rag.index.d) := by
  simp only [EasyRAG.add_documents] at h
  cases hA : rag.index.add (encode texts) with
  | error e =>
    rw [hA] at h
    simp only [Bind.bind, Except.bind] at h
    exact Except.noConfusion h
  | ok idx1 =>
    rw [hA] at h
    simp only [Bind.bind, Except.bind, Except.ok.injEq] at h
    subst h
    unfold IndexFlatL2.add at hA
    split at hA
    · injection hA with hA1
      subst hA1
      refine ⟨rfl, rfl, rfl, rfl, ?_⟩
      intro v hv
      have hall := List.all_eq_true.mp (by assumption) v hv
      simpa using hall
    · exact Except.noConfusion hA

theorem EasyRAG.addAll_ok (encode : List Doc → List Vec) :
    ∀ (batches : List (List Doc)) (s rag : EasyRAG),
    s.addAll encode batches = .ok rag →
    rag.documents = s.documents ++ batches.flatten ∧
    rag.index.xb = s.index.xb ++ (batches.map encode).flatten ∧
    rag.index.d = s.index.d ∧
    rag.embedding_dim = s.embedding_dim := by
  intro batches
  induction batches with
  | nil =>
    intro s rag h
    injection h with h
    subst h
    simp
  | cons b bs ih =>
    intro s rag h
    unfold EasyRAG.addAll at h
    cases hA : s.add_documents encode b with
    | error e =>
      rw [hA] at h
      simp only [Bind.bind, Except.bind] at h
      exact Except.noConfusion h
    | ok s1 =>
      rw [hA] at h
      simp only [Bind.bind, Except.bind] at h
      obtain ⟨h1, h2, h3, h4⟩ := ih s1 rag h
      obtain ⟨g1, g2, g3, g4, _⟩ := EasyRAG.add_documents_ok encode s b s1 hA
      refine ⟨?_, ?_, h3.trans g3, h4.trans g4⟩
      · rw [h1, g1, List.flatten_cons, List.append_assoc]
      · rw [h2, g2, List.map_cons, List.flatten_cons, List.append_assoc]

theorem IndexFlatL2.pairs_sorted (idx : IndexFlatL2) (q : Vec) (k : Nat)
    (pairs : List (ℚ × Nat)) (hok : idx.search q k = .ok pairs) :
    List.Pairwise distLE pairs ∧
    List.Pairwise (fun a b : ℚ × Nat => a.2 ≠ b.2) pairs := by
  obtain ⟨hq, hp⟩ := IndexFlatL2.search_ok _ _ _ _ hok
  subst hp
  constructor
  · exact List.Pairwise.sublist (List.take_sublist _ _) (idx.sorted_neighborList q)
  · have h1 : List.Pairwise (fun a b : ℚ × Nat => a.2 ≠ b.2)
        (idx.neighborList q) := List.pairwise_map.mp (idx.idsNodup q)
    exact List.Pairwise.sublist (List.take_sublist _ _) h1

/-! The claims. -/

/-- C1: for every knowledge base holding at least one document and every
question, the answer returned by `answer_question` is exactly the fixed
primary lead-in followed by the full, verbatim rank-1 text, and — if and only
if a rank-2 result exists — the secondary lead-in followed by exactly the
first 200 characters of the rank-2 text and the ellipsis marker.  Results of
rank 3 and beyond are in the returned list (whose length is
`min 3 document_count`) but contribute nothing to the answer string. -/
theorem EasyRAG.answer_question_composition (encode : List Doc → List Vec)
    (rag : EasyRAG) (question : Doc) (ans : Doc) (results : List SearchResult)
    (hne : rag.documents ≠ [])
    (hinv : rag.index.xb.length = rag.documents.length)
    (hok : rag.answer_question encode question = .ok (ans, results)) :
    results ≠ [] ∧
    results.length = min 3 rag.documents.length ∧
    ans = leadPrimary ++ (results.getD 0 dummyResult).text ++
      (if 1 < results.length then
        leadSecondary ++ (results.getD 1 dummyResult).text.take 200 ++ ellipsisMark
      else []) := by
  obtain ⟨h1, h2, h3, h4⟩ :=
    EasyRAG.answer_ok_eq encode rag question ans results hne hinv hok
  exact ⟨h3, h2, h4⟩

/-- C2: for every query and every `k ≥ 0` the number of results returned by
`search` is `min k document_count`; in particular it is `0` whenever the
store is empty. -/
theorem EasyRAG.search_cardinality (encode : List Doc → List Vec)
    (rag : EasyRAG) (query : Doc) (k : Nat) (results : List SearchResult)
    (hinv : rag.index.xb.length = rag.documents.length)
    (hok : rag.search encode query k = .ok results) :
    results.length = min k rag.documents.length := by
  by_cases hne : rag.documents = []
  · rw [EasyRAG.search_empty encode rag query k hne] at hok
    injection hok with h
    rw [← h, hne]
    simp
  · obtain ⟨pairs, _, _, _, h4⟩ :=
      EasyRAG.search_ok_eq encode rag query k results hne hinv hok
    exact h4

/-- C3: in the ranked `(distance, identifier)` list produced by the index
search, an earlier rank has squared Euclidean distance less than or equal to
a later rank, and on equal distances the earlier rank carries the strictly
smaller identifier (earlier-inserted document wins). -/
theorem IndexFlatL2.search_ordering (idx : IndexFlatL2) (q : Vec) (k : Nat)
    (pairs : List (ℚ × Nat)) (hok : idx.search q k = .ok pairs)
    (i j : Nat) (hi : i < pairs.length) (hj : j < pairs.length) (hij : i < j) :
    pairs[i].1 ≤ pairs[j].1 ∧
    (pairs[i].1 = pairs[j].1 → pairs[i].2 < pairs[j].2) := by
  obtain ⟨hsort, hneq⟩ := IndexFlatL2.pairs_sorted idx q k pairs hok
  have hle : distLE pairs[i] pairs[j] :=
    (List.pairwise_iff_getElem.mp hsort) i j hi hj hij
  have hid : pairs[i].2 ≠ pairs[j].2 :=
    (List.pairwise_iff_getElem.mp hneq) i j hi hj hij
  rcases hle with h | ⟨heq, hle2⟩
  · exact ⟨le_of_lt h, fun he => absurd (he ▸ h) (lt_irrefl _)⟩
  · exact ⟨le_of_eq heq, fun _ => Nat.lt_of_le_of_ne hle2 hid⟩

/-- C4: every result returned by `search` carries
`similarity = 1 / (1 + d)` where `d` is the squared L2 distance from the
query embedding to that result's stored vector; `d ≥ 0`, so the similarity
lies in `(0, 1]`, equals `1` exactly when `d = 0`, and the transform is
strictly decreasing in the distance. -/
theorem EasyRAG.search_similarity_transform (encode : List Doc → List Vec)
    (rag : EasyRAG) (query : Doc) (top_k : Nat) (results : List SearchResult)
    (hok : rag.search encode query top_k = .ok results)
    (r : SearchResult) (hr : r ∈ results) :
    (∃ i, i < rag.index.xb.length ∧
      0 ≤ sqL2 ((encode [query]).headD []) (rag.index.xb.getD i []) ∧
      r.similarity =
        1 / (1 + sqL2 ((encode [query]).headD []) (rag.index.xb.getD i [])) ∧
      (r.similarity = 1 ↔
        sqL2 ((encode [query]).headD []) (rag.index.xb.getD i []) = 0)) ∧
    0 < r.similarity ∧ r.similarity ≤ 1 ∧
    (∀ d1 d2 : ℚ, 0 ≤ d1 → d1 < d2 → 1 / (1 + d2) < 1 / (1 + d1)) := by
  obtain ⟨i, hi, hsim, _⟩ :=
    EasyRAG.mem_search_sim encode rag query top_k results hok r hr
  have hd0 : 0 ≤ sqL2 ((encode [query]).headD []) (rag.index.xb.getD i []) :=
    sqL2_nonneg _ _
  have hpos : (0:ℚ) <
      1 + sqL2 ((encode [query]).headD []) (rag.index.xb.getD i []) := by
    linarith
  refine ⟨⟨i, hi, hd0, hsim, ?_⟩, ?_, ?_, ?_⟩
  · rw [hsim]
    constructor
    · intro h1
      have h2 := (div_eq_one_iff_eq (ne_of_gt hpos)).mp h1
      linarith
    · intro h0
      rw [h0]
      norm_num
  · rw [hsim]
    exact div_pos one_pos hpos
  · rw [hsim]
    exact (div_le_one hpos).mpr (by linarith)
  · intro d1 d2 h1 h2
    exact one_div_lt_one_div_of_lt (by linarith) (by linarith)

/-- C5: on a knowledge base with zero documents, `search` returns `[]` for
every query and every `k` without consulting the embedder or the index (the
statement holds for every `encode`, so the result cannot depend on it), and
`answer_question` returns the fixed fallback string together with an empty
result list. -/
theorem EasyRAG.empty_kb_fallback (encode : List Doc → List Vec)
    (rag : EasyRAG) (hempty : rag.documents = []) (question : Doc) (k : Nat) :
    rag.search encode question k = .ok [] ∧
    rag.answer_question encode question = .ok (fallbackAnswer, []) := by
  refine ⟨EasyRAG.search_empty encode rag question k hempty, ?_⟩
  unfold EasyRAG.answer_question
  rw [EasyRAG.search_empty encode rag question 3 hempty]
  rfl

/-- C6: a batch containing a vector of the wrong dimensionality makes the
insert fail with `dimensionMismatch` while the state is unchanged (the
state-threaded form returns the untouched state, so nothing of the batch is
appended), and a query embedding of the wrong dimensionality makes `search`
on a nonempty store fail with `dimensionMismatch`. -/
theorem EasyRAG.dimensionMismatch_rejects (encode : List Doc → List Vec)
    (rag : EasyRAG) (texts : List Doc) (question : Doc) (k : Nat) :
    ((∃ v ∈ encode texts, v.length ≠ rag.index.d) →
      rag.add_documents encode texts = .error .dimensionMismatch ∧
      rag.add_documentsS encode texts = (.error .dimensionMismatch, rag)) ∧
    (rag.documents ≠ [] →
      ((encode [question]).headD []).length ≠ rag.index.d →
      rag.search encode question k = .error .dimensionMismatch) := by
  constructor
  · rintro ⟨v, hv, hvne⟩
    have hadd : rag.index.add (encode texts) = .error .dimensionMismatch := by
      unfold IndexFlatL2.add
      rw [if_neg]
      intro hall
      exact hvne (by simpa using List.all_eq_true.mp hall v hv)
    constructor
    · simp only [EasyRAG.add_documents, hadd, Bind.bind, Except.bind]
    · simp only [EasyRAG.add_documentsS, hadd]
  · intro hne hqd
    have hie : rag.documents.isEmpty = false := by
      simp [List.isEmpty_iff, hne]
    have hS : rag.index.search ((encode [question]).headD [])
        (min k rag.documents.length) = .error .dimensionMismatch := by
      unfold IndexFlatL2.search
      rw [if_neg hqd]
    simp only [EasyRAG.search, hie, Bool.false_eq_true, if_false, hS,
      Bind.bind, Except.bind]

/-- C7: starting from the empty knowledge base, after every successful
sequence of `add_documents` calls the stored vector count equals the stored
text count and equals the sum of the batch sizes, and the two stores are the
in-order concatenations of the inserted batches, so identifier `i` in the
index refers to `documents[i]`. -/
theorem EasyRAG.insertion_count_invariant (encode : List Doc → List Vec)
    (hcontract : ∀ ts, (encode ts).length = ts.length)
    (batches : List (List Doc)) (rag : EasyRAG)
    (hok : EasyRAG.init.addAll encode batches = .ok rag) :
    rag.index.xb.length = rag.documents.length ∧
    rag.documents.length = (batches.map List.length).sum ∧
    rag.documents = batches.flatten ∧
    rag.index.xb = (batches.map encode).flatten := by
  obtain ⟨h1, h2, _, _⟩ := EasyRAG.addAll_ok encode batches EasyRAG.init rag hok
  simp only [EasyRAG.init, List.nil_append] at h1 h2
  have hfun : (List.length ∘ encode) = List.length := funext fun ts => hcontract ts
  have hx : rag.index.xb.length = (batches.map List.length).sum := by
    rw [h2, List.length_flatten, List.map_map, hfun]
  have hdoc : rag.documents.length = (batches.map List.length).sum := by
    rw [h1, List.length_flatten]
  exact ⟨by rw [hx, hdoc], hdoc, h1, h2⟩

/-- C8: adding an empty batch is a no-op: no error, no new vectors, no new
texts — the state returned is the input state itself.  (The hypothesis is the
embedder contract on an empty batch: encoding zero texts yields zero
vectors.) -/
theorem EasyRAG.add_documents_empty_noop (encode : List Doc → List Vec)
    (rag : EasyRAG) (hnil : encode [] = []) :
    rag.add_documents encode [] = .ok rag := by
  simp only [EasyRAG.add_documents, IndexFlatL2.add, hnil, List.all_nil,
    if_true, List.append_nil, Bind.bind, Except.bind]

/-- C9: `search` and `answer_question` never mutate the knowledge base: their
state-threaded translations return the input state unchanged, while
`add_documents` either fails leaving the state unchanged or appends exactly
its batch — so insertion is the only mutating operation. -/
theorem EasyRAG.frame_search_answer_pure (encode : List Doc → List Vec)
    (σ : EasyRAG) (question : Doc) (top_k : Nat) (texts : List Doc) :
    (σ.searchS encode question top_k).2 = σ ∧
    (σ.answer_questionS encode question).2 = σ ∧
    ((σ.add_documentsS encode texts).2 = σ ∨
      ((σ.add_documentsS encode texts).2.documents = σ.documents ++ texts ∧
        (σ.add_documentsS encode texts).2.index.xb
          = σ.index.xb ++ encode texts)) := by
  have hs : ∀ tk, (σ.searchS encode question tk).2 = σ := by
    intro tk
    unfold EasyRAG.searchS
    split
    · rfl
    · split <;> rfl
  refine ⟨hs top_k, ?_, ?_⟩
  · unfold EasyRAG.answer_questionS
    cases hE : σ.searchS encode question 3 with
    | mk val σ1 =>
      have hσ1 : σ1 = σ := by
        have h3 := hs 3
        rw [hE] at h3
        exact h3
      cases val with
      | error e => exact hσ1
      | ok rd =>
        split
        · rename_i heq
          simp at heq
        · rename_i rds σ2 heq
          injection heq with hv hσ
          subst hσ
          split <;> exact hσ1
  · unfold EasyRAG.add_documentsS
    cases hA : σ.index.add (encode texts) with
    | error e => exact Or.inl rfl
    | ok idx1 =>
      refine Or.inr ⟨rfl, ?_⟩
      unfold IndexFlatL2.add at hA
      split at hA
      · injection hA with hA1
        rw [← hA1]
      · exact Except.noConfusion hA

/-- C10: when a rank-2 result exists and its text has at most 200 characters,
the secondary section carries that text in full and unmodified, still
followed by the ellipsis marker: the cutoff only shortens longer texts. -/
theorem EasyRAG.secondary_short_text_full (encode : List Doc → List Vec)
    (rag : EasyRAG) (question : Doc) (ans : Doc) (results : List SearchResult)
    (hne : rag.documents ≠ [])
    (hinv : rag.index.xb.length = rag.documents.length)
    (hok : rag.answer_question encode question = .ok (ans, results))
    (h2 : 1 < results.length)
    (hshort : (results.getD 1 dummyResult).text.length ≤ 200) :
    ans = leadPrimary ++ (results.getD 0 dummyResult).text ++
      leadSecondary ++ (results.getD 1 dummyResult).text ++ ellipsisMark := by
  obtain ⟨_, _, _, h4⟩ :=
    EasyRAG.answer_ok_eq encode rag question ans results hne hinv hok
  rw [h4, if_pos h2, List.take_of_length_le hshort]
  simp [List.append_assoc]

/-! Evaluations of the operations on the concrete data, and witnesses. -/

theorem ragW_index_eval : ragW.index.search [(2 : ℚ)] 2 = .ok pairsW := by
  norm_num [IndexFlatL2.search, IndexFlatL2.neighborList, ragW, pairsW, sqL2,
    List.insertionSort, List.orderedInsert, distLE, List.enum, List.enumFrom]

theorem ragW_search_eval : ragW.search encodeW qW 3 = .ok resW := by
  norm_num [EasyRAG.search, IndexFlatL2.search, IndexFlatL2.neighborList,
    encodeW, qW, ragW, resW, resW1, docA, docB, sqL2, List.insertionSort,
    List.orderedInsert, distLE, List.enum, List.enumFrom, Bind.bind,
    Except.bind, dummyResult]
  rfl

theorem ragW_answer_eval : ragW.answer_question encodeW qW = .ok (ansW, resW) := by
  have hs := ragW_search_eval
  unfold EasyRAG.answer_question
  rw [hs]
  norm_num [Bind.bind, Except.bind, resW, resW1, ansW, docA, docB, dummyResult,
    List.getElem_cons_succ, List.getElem_cons_zero]

theorem init_addAll_eval :
    EasyRAG.init.addAll encode384 batchesW = .ok ragAfter := by
  norm_num [EasyRAG.addAll, EasyRAG.add_documents, IndexFlatL2.add, encode384,
    EasyRAG.init, batchesW, ragAfter, Bind.bind, Except.bind,
    List.length_replicate]

/-- Witness for C1 at the concrete knowledge base `ragW`. -/
theorem EasyRAG.answer_question_composition_witness :
    resW ≠ [] ∧
    resW.length = min 3 ragW.documents.length ∧
    ansW = leadPrimary ++ (resW.getD 0 dummyResult).text ++
      (if 1 < resW.length then
        leadSecondary ++ (resW.getD 1 dummyResult).text.take 200 ++ ellipsisMark
      else []) :=
  EasyRAG.answer_question_composition encodeW ragW qW ansW resW
    (by simp [ragW]) rfl ragW_answer_eval

/-- Witness for C2 at the concrete knowledge base `ragW`. -/
theorem EasyRAG.search_cardinality_witness :
    resW.length = min 3 ragW.documents.length :=
  EasyRAG.search_cardinality encodeW ragW qW 3 resW rfl ragW_search_eval

/-- Witness for C3: the tie between the two stored vectors of `ragW` is
resolved by ascending identifier. -/
theorem IndexFlatL2.search_ordering_witness :
    pairsW[0].1 ≤ pairsW[1].1 ∧
    (pairsW[0].1 = pairsW[1].1 → pairsW[0].2 < pairsW[1].2) :=
  IndexFlatL2.search_ordering ragW.index [(2 : ℚ)] 2 pairsW ragW_index_eval
    0 1 (by norm_num [pairsW]) (by norm_num [pairsW]) (by norm_num)

/-- Witness for C4 at the rank-1 result of the query `qW` on `ragW`. -/
theorem EasyRAG.search_similarity_transform_witness :
    (∃ i, i < ragW.index.xb.length ∧
      0 ≤ sqL2 ((encodeW [qW]).headD []) (ragW.index.xb.getD i []) ∧
      resW1.similarity =
        1 / (1 + sqL2 ((encodeW [qW]).headD []) (ragW.index.xb.getD i [])) ∧
      (resW1.similarity = 1 ↔
        sqL2 ((encodeW [qW]).headD []) (ragW.index.xb.getD i []) = 0)) ∧
    0 < resW1.similarity ∧ resW1.similarity ≤ 1 ∧
    (∀ d1 d2 : ℚ, 0 ≤ d1 → d1 < d2 → 1 / (1 + d2) < 1 / (1 + d1)) :=
  EasyRAG.search_similarity_transform encodeW ragW qW 3 resW ragW_search_eval
    resW1 (by simp [resW])

/-- Witness for C5 at the freshly initialised, empty knowledge base. -/
theorem EasyRAG.empty_kb_fallback_witness :
    EasyRAG.init.search encodeW qW 5 = .ok [] ∧
    EasyRAG.init.answer_question encodeW qW = .ok (fallbackAnswer, []) :=
  EasyRAG.empty_kb_fallback encodeW EasyRAG.init rfl qW 5

/-- Witness for C6: a one-dimensional vector rejected by the 384-dimensional
default index, and a two-dimensional query rejected by `ragW`. -/
theorem EasyRAG.dimensionMismatch_rejects_witness :
    (EasyRAG.init.add_documents encodeW [docA] = .error .dimensionMismatch ∧
      EasyRAG.init.add_documentsS encodeW [docA]
        = (.error .dimensionMismatch, EasyRAG.init)) ∧
    ragW.search encodeBad qW 3 = .error .dimensionMismatch :=
  ⟨(EasyRAG.dimensionMismatch_rejects encodeW EasyRAG.init [docA] qW 3).1
      ⟨[(docA.length : ℚ)], by simp [encodeW], by decide⟩,
    (EasyRAG.dimensionMismatch_rejects encodeBad ragW [docA] qW 3).2
      (by simp [ragW]) (by decide)⟩

/-- Witness for C7: inserting two singleton batches from the empty state. -/
theorem EasyRAG.insertion_count_invariant_witness :
    ragAfter.index.xb.length = ragAfter.documents.length ∧
    ragAfter.documents.length = (batchesW.map List.length).sum ∧
    ragAfter.documents = batchesW.flatten ∧
    ragAfter.index.xb = (batchesW.map encode384).flatten :=
  EasyRAG.insertion_count_invariant encode384
    (by intro ts; simp only [encode384, List.length_map]) batchesW ragAfter
    init_addAll_eval

/-- Witness for C8: an empty batch on `ragW`. -/
theorem EasyRAG.add_documents_empty_noop_witness :
    ragW.add_documents encodeW [] = .ok ragW :=
  EasyRAG.add_documents_empty_noop encodeW ragW rfl

/-- Witness for C10: the rank-2 text `docB` is 3 characters long so it
appears in full in the secondary section. -/
theorem EasyRAG.secondary_short_text_full_witness :
    ansW = leadPrimary ++ (resW.getD 0 dummyResult).text ++ leadSecondary ++
      (resW.getD 1 dummyResult).text ++ ellipsisMark :=
  EasyRAG.secondary_short_text_full encodeW ragW qW ansW resW (by simp [ragW])
    rfl ragW_answer_eval (by norm_num [resW]) (by decide)

/-- Counterexample for the literal reading of C5: on the empty knowledge base
the fallback answer is not the string "no information available" — the fixed
fallback is "I don't have information to answer this question.". -/
theorem EasyRAG.empty_kb_fallback_counterexample :
    EasyRAG.init.answer_question encodeW qW = .ok (fallbackAnswer, []) ∧
    fallbackAnswer ≠ "no information available".data :=
  ⟨rfl, by decide⟩
